import Mathlib

/-!
Verification development for the cpkit judging engine.

The definitions below are a shallow embedding of `src/judge.rs`,
`src/executor.rs` and `src/models.rs`.  Strings are modelled as
`List Char`; the IO-dependent behaviour of a child process (when it
exits, what it prints, its exit code) is an explicit input of the
embedding, so every definition is executable.
-/

/-- Convert a Lean string literal to the `List Char` representation used
throughout this development. -/
def str (s : String) : List Char := s.data

/-- Model of Rust's `char::is_whitespace` (the Unicode `White_Space`
property), which is what `str::trim` and `str::trim_end` strip. -/
def rustIsWhitespace (c : Char) : Bool :=
  c = ' ' || c = '\t' || c = '\n' || c = '\x0b' || c = '\x0c' || c = '\r' ||
  c = '\u0085' || c = '\u00A0' || c = '\u1680' ||
  ('\u2000' ≤ c && c ≤ '\u200A') ||
  c = '\u2028' || c = '\u2029' || c = '\u202F' || c = '\u205F' || c = '\u3000'

/-- Model of Rust's `str::trim_start`: drop leading whitespace. -/
def trimStartL (x : List Char) : List Char := x.dropWhile rustIsWhitespace

/-- Model of Rust's `str::trim_end`: drop trailing whitespace. -/
def trimEndL (x : List Char) : List Char :=
  (x.reverse.dropWhile rustIsWhitespace).reverse

/-- Model of Rust's `str::trim`: drop leading and trailing whitespace. -/
def trimL (x : List Char) : List Char := trimEndL (trimStartL x)

/-- Split a character list at every `'\n'`; every piece is kept, including
empty ones (this is the raw split underlying Rust's `str::lines`). -/
def splitOnNl : List Char → List (List Char)
  | [] => [[]]
  | c :: rest =>
    if c = '\n' then [] :: splitOnNl rest
    else
      match splitOnNl rest with
      | [] => [[c]]
      | h :: t => (c :: h) :: t

/-- Remove one trailing `'\r'`, if present (Rust's `lines` treats `\r\n`
as a line terminator). -/
def stripCR (l : List Char) : List Char :=
  match l.reverse with
  | [] => l
  | c :: t => if c = '\r' then t.reverse else l

/-- Post-processing of the raw `'\n'` split performed by Rust's
`str::lines`: every `'\n'`-terminated piece loses one trailing `'\r'`;
the final piece (not `'\n'`-terminated) is kept verbatim, and is dropped
entirely when empty (the final line ending is optional). -/
def adjustParts : List (List Char) → List (List Char)
  | [] => []
  | [l] => if l = [] then [] else [l]
  | l :: l2 :: rest => stripCR l :: adjustParts (l2 :: rest)

/-- Model of Rust's `str::lines`, as used by `Judge::normalize_output`. -/
def rustLines (s : List Char) : List (List Char) := adjustParts (splitOnNl s)

/-- Model of `Vec::join("\n")`: concatenate with a single `'\n'` between
consecutive pieces. -/
def joinSep : List (List Char) → List Char
  | [] => []
  | [x] => x
  | x :: y :: rest => x ++ '\n' :: joinSep (y :: rest)

/-- Embedding of `Judge::normalize_output` (src/judge.rs:150-158):
split into lines, strip trailing whitespace from each line, rejoin with
`'\n'`, then trim the whole result. -/
def normalize_output (output : List Char) : List Char :=
  trimL (joinSep ((rustLines output).map trimEndL))

/-- Embedding of `Judge::compare_output` (src/judge.rs:141-147):
normalize both texts and compare for exact equality. -/
def compare_output (expected actual : List Char) : Bool :=
  decide (normalize_output expected = normalize_output actual)

/-- Normalization written from the spec's words (§4.4): "split both texts
into lines, strip trailing whitespace from each line, rejoin with a
single newline separator, strip leading/trailing whitespace from the
whole result".  Here "split into lines" is the plain split at `'\n'`,
with none of the extra conventions of Rust's `str::lines`. -/
def spec_normalize (output : List Char) : List Char :=
  trimL (joinSep ((splitOnNl output).map trimEndL))

/-- Drop leading empty lines of a line list. -/
def dropLeadingEmpty (L : List (List Char)) : List (List Char) :=
  L.dropWhile (fun l => l.isEmpty)

/-- Drop trailing empty lines of a line list. -/
def dropTrailingEmpty (L : List (List Char)) : List (List Char) :=
  (L.reverse.dropWhile (fun l => l.isEmpty)).reverse

/-- Drop both leading and trailing empty lines of a line list. -/
def dropOuterEmpty (L : List (List Char)) : List (List Char) :=
  dropTrailingEmpty (dropLeadingEmpty L)

/-- Bool test: `needle` occurs at the very start of `hay`. -/
def startsWithL : List Char → List Char → Bool
  | _, [] => true
  | [], _ :: _ => false
  | a :: as, b :: bs => a = b && startsWithL as bs

/-- Model of Rust's `str::contains` for a literal pattern: `needle`
occurs as a contiguous substring of `hay`. -/
def containsSub : List Char → List Char → Bool
  | [], needle => startsWithL [] needle
  | c :: t, needle => startsWithL (c :: t) needle || containsSub t needle

/-- Non-whitespace characters (the content that normalization preserves). -/
def nonWS (c : Char) : Bool := !rustIsWhitespace c

/-- Embedding of `TestStatus` (src/models.rs:84-93). -/
inductive TestStatus where
  | Pending
  | Running
  | Accepted
  | WrongAnswer
  | RuntimeError
  | TimeLimitExceeded
  | MemoryLimitExceeded
  | CompilationError
deriving DecidableEq

/-- The six terminal statuses of the spec's state machine: everything
except `Pending` and `Running`. -/
def TestStatus.isTerminal : TestStatus → Bool
  | .Pending => false
  | .Running => false
  | _ => true

/-- Embedding of `TestCase` (src/models.rs:48-57); the `Uuid` identity is
modelled as a `Nat`, `Duration` as a number of milliseconds. -/
structure TestCase where
  id : Nat
  input : List Char
  expected_output : List Char
  actual_output : Option (List Char)
  status : TestStatus
  execution_time : Option Nat
  memory_used : Option Nat
  error_message : Option (List Char)
deriving DecidableEq

/-- Embedding of `TestCase::reset` (src/models.rs:73-79). -/
def TestCase.reset (t : TestCase) : TestCase :=
  { t with
    actual_output := none
    status := .Pending
    execution_time := none
    memory_used := none
    error_message := none }

/-- Embedding of `ExecutionResult` (src/models.rs:222-228). -/
structure ExecutionResult where
  output : List Char
  exit_code : Int
  execution_time : Nat
  memory_used : Option Nat
  error : Option (List Char)
deriving DecidableEq

/-- Behaviour of the child process spawned for one execution: either it
never exits, or it exits after `elapsed` milliseconds having produced
the given stdout and stderr and exit code.  This is the IO input of the
embedding of `Executor::execute`. -/
inductive ProcBehavior where
  | hangs
  | exits (elapsed : Nat) (stdoutData stderrData : List Char) (code : Int)
deriving DecidableEq

/-- Environment outcome of one call to `Executor::execute`: either the
spawn itself fails (`Command::spawn` returns `Err`), or a process with
the given behaviour is created. -/
inductive ExecBehavior where
  | spawnFail (msg : List Char)
  | proc (b : ProcBehavior)
deriving DecidableEq

/-- Result of one call to `Executor::execute` as seen by the caller:
an `Err` return, a call that never returns (the process never exits and
`wait_with_output` blocks forever), or an `ExecutionResult`. -/
inductive ExecStep where
  | err (msg : List Char)
  | hangs
  | ok (r : ExecutionResult)
deriving DecidableEq

/-- Embedding of the body of `Executor::execute` (src/executor.rs:127-208)
after the child is spawned: the code blocks in `wait_with_output` until
the process exits on its own (`none` models a call that never returns);
once it has exited, if the elapsed time exceeds `time_limit` the result
is `error = "Timeout"` with empty output and exit code `-1`; otherwise
the captured stderr becomes the advisory `error` when non-empty.
No kill or termination call appears anywhere in this function. -/
def execute (b : ProcBehavior) (time_limit : Nat) : Option ExecutionResult :=
  match b with
  | .hangs => none
  | .exits elapsed out errS code =>
    if time_limit < elapsed then
      some { output := []
             exit_code := -1
             execution_time := elapsed
             memory_used := none
             error := some (str "Timeout") }
    else
      some { output := out
             exit_code := code
             execution_time := elapsed
             memory_used := none
             error := if errS = [] then none else some errS }

/-- One call to `Executor::execute` including the spawn step
(src/executor.rs:134-167): a failed spawn propagates as `Err`. -/
def executeCall (eb : ExecBehavior) (time_limit : Nat) : ExecStep :=
  match eb with
  | .spawnFail m => .err m
  | .proc b =>
    match execute b time_limit with
    | none => .hangs
    | some r => .ok r

/-- Whether a real OS process was created during the call. -/
def spawnHappens : ExecBehavior → Bool
  | .spawnFail _ => false
  | .proc _ => true

/-- Outcome of one judging call (`run_test` / `judge_test`): `Ok(())`,
`Err(e)`, or a call that never returns. -/
inductive JOutcome where
  | ok
  | err (msg : List Char)
  | hangs
deriving DecidableEq

/-- Observable effect of one judging call: the final state of the
borrowed test case, the returned outcome, whether a process was spawned,
and the sequence of values assigned to `test.status` during the call. -/
structure RunCall where
  test : TestCase
  outcome : JOutcome
  spawned : Bool
  trace : List TestStatus
deriving DecidableEq

/-- Embedding of `Judge::update_test_from_result` (src/judge.rs:108-138). -/
def update_test_from_result (test : TestCase) (result : ExecutionResult) :
    TestCase :=
  let test1 := { test with
    execution_time := some result.execution_time
    memory_used := result.memory_used
    actual_output := some result.output }
  match result.error with
  | some e =>
    if containsSub e (str "Timeout") then
      { test1 with status := .TimeLimitExceeded }
    else
      { test1 with
        status := .RuntimeError
        error_message := some e }
  | none =>
    if result.exit_code ≠ 0 then
      { test1 with
        status := .RuntimeError
        error_message :=
          some (str "Program exited abnormally, exit code: " ++
                (toString result.exit_code).data) }
    else if compare_output test.expected_output result.output then
      { test1 with status := .Accepted }
    else
      { test1 with status := .WrongAnswer }

/-- Embedding of `Judge::run_test` (src/judge.rs:43-64).  The cached
artifact of the judge is `compiled_executable`; `stop_signal` is the
cancellation flag the caller passes in (the function accepts it and
hands it to the executor, which never reads it); `eb` is the behaviour
of the environment for the single `execute` call. -/
def run_test (compiled_executable : Option (List Char)) (test : TestCase)
    (stop_signal : Bool) (eb : ExecBehavior) (time_limit : Nat) : RunCall :=
  let testR := { test with status := .Running }
  match compiled_executable with
  | none =>
    { test := testR
      outcome := .err (str "No compiled executable found")
      spawned := false
      trace := [.Running] }
  | some _ =>
    match executeCall eb time_limit with
    | .err m =>
      { test := testR
        outcome := .err m
        spawned := spawnHappens eb
        trace := [.Running] }
    | .hangs =>
      { test := testR
        outcome := .hangs
        spawned := true
        trace := [.Running] }
    | .ok r =>
      let t2 := update_test_from_result testR r
      { test := t2
        outcome := .ok
        spawned := true
        trace := [.Running, t2.status] }

/-- Embedding of `Judge::judge_test` (src/judge.rs:75-105).
`compile_result` is the outcome of the `executor.compile` call
(`Err` carries the compiler's failure description). -/
def judge_test (compile_result : Except (List Char) (List Char))
    (test : TestCase) (stop_signal : Bool) (eb : ExecBehavior)
    (time_limit : Nat) : RunCall :=
  let testR := { test with status := .Running }
  match compile_result with
  | .error e =>
    let t2 := { testR with
                status := .CompilationError
                error_message := some (str "Compilation failed: " ++ e) }
    { test := t2
      outcome := .ok
      spawned := false
      trace := [.Running, .CompilationError] }
  | .ok _ =>
    match executeCall eb time_limit with
    | .err m =>
      { test := testR
        outcome := .err m
        spawned := spawnHappens eb
        trace := [.Running] }
    | .hangs =>
      { test := testR
        outcome := .hangs
        spawned := true
        trace := [.Running] }
    | .ok r =>
      let t2 := update_test_from_result testR r
      { test := t2
        outcome := .ok
        spawned := true
        trace := [.Running, t2.status] }

/-- Embedding of `JudgeStatistics` (src/judge.rs:193-201). -/
structure JudgeStatistics where
  total : Nat
  passed : Nat
  wrong_answer : Nat
  runtime_error : Nat
  time_limit_exceeded : Nat
  memory_limit_exceeded : Nat
  compilation_error : Nat
deriving DecidableEq

/-- The per-status counter update of the `match` in `judge_all_tests`
(src/judge.rs:175-183); `Pending`/`Running` fall into the `_ => {}` arm. -/
def bump (st : JudgeStatistics) : TestStatus → JudgeStatistics
  | .Accepted => { st with passed := st.passed + 1 }
  | .WrongAnswer => { st with wrong_answer := st.wrong_answer + 1 }
  | .RuntimeError => { st with runtime_error := st.runtime_error + 1 }
  | .TimeLimitExceeded =>
    { st with time_limit_exceeded := st.time_limit_exceeded + 1 }
  | .MemoryLimitExceeded =>
    { st with memory_limit_exceeded := st.memory_limit_exceeded + 1 }
  | .CompilationError =>
    { st with compilation_error := st.compilation_error + 1 }
  | _ => st

/-- Result of `judge_all_tests`: the `Ok` value (final test list and
statistics), an `Err`, or a call that never returns. -/
inductive JudgeAllOut where
  | ok (tests : List TestCase) (stats : JudgeStatistics)
  | err (msg : List Char)
  | hangs
deriving DecidableEq

/-- One batch item: a test case together with the environment behaviour
of the `compile` and `execute` calls made for it. -/
abbrev JudgeItem := TestCase × Except (List Char) (List Char) × ExecBehavior

/-- The loop of `judge_all_tests` (src/judge.rs:171-184): judge each test
in order, threading the statistics; an `Err` from `judge_test` aborts the
batch with `Err`. -/
def judgeAllGo (stop_signal : Bool) (time_limit : Nat) :
    List JudgeItem → JudgeStatistics → JudgeAllOut
  | [], st => .ok [] st
  | (t, c, eb) :: rest, st =>
    let r := judge_test c t stop_signal eb time_limit
    match r.outcome with
    | .err m => .err m
    | .hangs => .hangs
    | .ok =>
      match judgeAllGo stop_signal time_limit rest (bump st r.test.status) with
      | .ok ts st2 => .ok (r.test :: ts) st2
      | .err m => .err m
      | .hangs => .hangs

/-- Embedding of `Judge::judge_all_tests` (src/judge.rs:162-187):
`stats.total` is set to the number of tests up front, all other counters
start at zero, then the tests are judged sequentially. -/
def judge_all_tests (items : List JudgeItem) (stop_signal : Bool)
    (time_limit : Nat) : JudgeAllOut :=
  judgeAllGo stop_signal time_limit items
    { total := items.length
      passed := 0
      wrong_answer := 0
      runtime_error := 0
      time_limit_exceeded := 0
      memory_limit_exceeded := 0
      compilation_error := 0 }

/-- The status histories of the tests of one batch: `judge_all_tests`
performs one `judge_test` call per item, in order. -/
def batchTraces (items : List JudgeItem) (stop_signal : Bool)
    (time_limit : Nat) : List (List TestStatus) :=
  items.map (fun it => (judge_test it.2.1 it.1 stop_signal it.2.2 time_limit).trace)

/-- A sample test case (the spec's §8 scenario: input `"3\n1 2 3\n"`,
expected output `"6"`). -/
def tc0 : TestCase :=
  { id := 0
    input := str "3\n1 2 3\n"
    expected_output := str "6"
    actual_output := none
    status := .Pending
    execution_time := none
    memory_used := none
    error_message := none }

/-! Helper equation lemmas for the judging calls. -/

/-- `run_test` with no cached artifact: returns `Err` with the test left
in `Running`. -/
theorem run_test_none_eq (test : TestCase) (sig : Bool) (eb : ExecBehavior)
    (lim : Nat) :
    run_test none test sig eb lim =
    { test := { test with status := .Running }
      outcome := .err (str "No compiled executable found")
      spawned := false
      trace := [.Running] } := rfl

/-- `run_test` when the execute call returns a result. -/
theorem run_test_some_ok (c : List Char) (test : TestCase) (sig : Bool)
    (eb : ExecBehavior) (lim : Nat) (r : ExecutionResult)
    (h : executeCall eb lim = .ok r) :
    run_test (some c) test sig eb lim =
    { test := update_test_from_result { test with status := .Running } r
      outcome := .ok
      spawned := true
      trace := [.Running,
        (update_test_from_result { test with status := .Running } r).status] } := by
  unfold run_test
  rw [h]

/-- `run_test` when the execute call returns `Err`. -/
theorem run_test_some_err (c : List Char) (test : TestCase) (sig : Bool)
    (eb : ExecBehavior) (lim : Nat) (m : List Char)
    (h : executeCall eb lim = .err m) :
    run_test (some c) test sig eb lim =
    { test := { test with status := .Running }
      outcome := .err m
      spawned := spawnHappens eb
      trace := [.Running] } := by
  unfold run_test
  rw [h]

/-- `run_test` when the execute call never returns. -/
theorem run_test_some_hangs (c : List Char) (test : TestCase) (sig : Bool)
    (eb : ExecBehavior) (lim : Nat)
    (h : executeCall eb lim = .hangs) :
    run_test (some c) test sig eb lim =
    { test := { test with status := .Running }
      outcome := .hangs
      spawned := true
      trace := [.Running] } := by
  unfold run_test
  rw [h]

/-- `judge_test` when compilation fails. -/
theorem judge_test_compile_err (e : List Char) (test : TestCase) (sig : Bool)
    (eb : ExecBehavior) (lim : Nat) :
    judge_test (Except.error e) test sig eb lim =
    { test := { test with
        status := .CompilationError
        error_message := some (str "Compilation failed: " ++ e) }
      outcome := .ok
      spawned := false
      trace := [.Running, .CompilationError] } := rfl

/-- `judge_test` when compilation succeeds and the execute call returns a
result. -/
theorem judge_test_exec_ok (exe : List Char) (test : TestCase) (sig : Bool)
    (eb : ExecBehavior) (lim : Nat) (r : ExecutionResult)
    (h : executeCall eb lim = .ok r) :
    judge_test (Except.ok exe) test sig eb lim =
    { test := update_test_from_result { test with status := .Running } r
      outcome := .ok
      spawned := true
      trace := [.Running,
        (update_test_from_result { test with status := .Running } r).status] } := by
  unfold judge_test
  rw [h]

/-- `judge_test` when compilation succeeds and the execute call returns
`Err`. -/
theorem judge_test_exec_err (exe : List Char) (test : TestCase) (sig : Bool)
    (eb : ExecBehavior) (lim : Nat) (m : List Char)
    (h : executeCall eb lim = .err m) :
    judge_test (Except.ok exe) test sig eb lim =
    { test := { test with status := .Running }
      outcome := .err m
      spawned := spawnHappens eb
      trace := [.Running] } := by
  unfold judge_test
  rw [h]

/-- `judge_test` when compilation succeeds and the execute call never
returns. -/
theorem judge_test_exec_hangs (exe : List Char) (test : TestCase) (sig : Bool)
    (eb : ExecBehavior) (lim : Nat)
    (h : executeCall eb lim = .hangs) :
    judge_test (Except.ok exe) test sig eb lim =
    { test := { test with status := .Running }
      outcome := .hangs
      spawned := true
      trace := [.Running] } := by
  unfold judge_test
  rw [h]

/-- Whatever the execution result, `update_test_from_result` always sets
one of the six terminal statuses. -/
theorem update_status_terminal (t : TestCase) (r : ExecutionResult) :
    (update_test_from_result t r).status.isTerminal = true := by
  unfold update_test_from_result
  cases h : r.error with
  | some e =>
    dsimp only
    split <;> rfl
  | none =>
    dsimp only
    split
    · rfl
    · split <;> rfl

/-- C1, counterexample: with no cached compiled executable, `run_test`
returns `Err` and leaves the test's status equal to `Running`, so a
judging call can return with the status not terminal. -/
theorem c1_counterexample :
    (run_test none tc0 false (ExecBehavior.proc (ProcBehavior.exits 1 [] [] 0))
      2000).outcome = JOutcome.err (str "No compiled executable found") ∧
    (run_test none tc0 false (ExecBehavior.proc (ProcBehavior.exits 1 [] [] 0))
      2000).test.status = TestStatus.Running := by
  decide

/-- C1 (amended): whenever `run_test` or `judge_test` returns `Ok`, the
test's status is one of the six terminal statuses (in particular not
`Running`); a call that returns `Err` may leave the status `Running`. -/
theorem c1_ok_return_is_terminal :
    (∀ (compiled : Option (List Char)) (test : TestCase) (sig : Bool)
      (eb : ExecBehavior) (lim : Nat),
      (run_test compiled test sig eb lim).outcome = JOutcome.ok →
      (run_test compiled test sig eb lim).test.status.isTerminal = true) ∧
    (∀ (cres : Except (List Char) (List Char)) (test : TestCase) (sig : Bool)
      (eb : ExecBehavior) (lim : Nat),
      (judge_test cres test sig eb lim).outcome = JOutcome.ok →
      (judge_test cres test sig eb lim).test.status.isTerminal = true) := by
  constructor
  · intro compiled test sig eb lim h
    cases compiled with
    | none => rw [run_test_none_eq] at h; exact absurd h (by simp)
    | some c =>
      cases hs : executeCall eb lim with
      | err m => rw [run_test_some_err c test sig eb lim m hs] at h
                 exact absurd h (by simp)
      | hangs => rw [run_test_some_hangs c test sig eb lim hs] at h
                 exact absurd h (by simp)
      | ok r => rw [run_test_some_ok c test sig eb lim r hs]
                exact update_status_terminal _ _
  · intro cres test sig eb lim h
    cases cres with
    | error e => rw [judge_test_compile_err]; rfl
    | ok exe =>
      cases hs : executeCall eb lim with
      | err m => rw [judge_test_exec_err exe test sig eb lim m hs] at h
                 exact absurd h (by simp)
      | hangs => rw [judge_test_exec_hangs exe test sig eb lim hs] at h
                 exact absurd h (by simp)
      | ok r => rw [judge_test_exec_ok exe test sig eb lim r hs]
                exact update_status_terminal _ _

/-- C1, witness: a concrete `Ok`-returning `run_test` call whose final
status is terminal. -/
theorem c1_witness :
    (run_test (some (str "a.exe")) tc0 false
      (ExecBehavior.proc (ProcBehavior.exits 5 (str "6\n") [] 0))
      2000).test.status.isTerminal = true :=
  c1_ok_return_is_terminal.1 (some (str "a.exe")) tc0 false
    (ExecBehavior.proc (ProcBehavior.exits 5 (str "6\n") [] 0)) 2000
    (by decide)

/-- C2, code evaluation at the failing input: for a process that never
exits on its own, `Executor::execute` blocks forever in
`wait_with_output` — it produces no result at all (in particular no
`error = "Timeout"` result), never terminates the process, and the
judging call never returns; the timeout check only runs after the
process has already exited by itself. -/
theorem c2_never_exiting_process_is_waited_forever :
    execute ProcBehavior.hangs 2000 = none ∧
    executeCall (ExecBehavior.proc ProcBehavior.hangs) 2000 = ExecStep.hangs ∧
    (run_test (some (str "a.exe")) tc0 false
      (ExecBehavior.proc ProcBehavior.hangs) 2000).outcome = JOutcome.hangs := by
  decide

/-- C5, counterexample: in a one-test batch whose compilation fails, the
test's status takes the value `Running` during the batch (it is assigned
`Running` before the compile attempt and only then `CompilationError`),
refuting "no test's status ever takes the value Running". -/
theorem c5_counterexample :
    (judge_test (Except.error (str "x")) tc0 false
      (ExecBehavior.proc ProcBehavior.hangs) 2000).trace =
      [TestStatus.Running, TestStatus.CompilationError] ∧
    TestStatus.Running ∈
      (batchTraces [(tc0, Except.error (str "x"),
        ExecBehavior.proc ProcBehavior.hangs)] false 2000).flatten ∧
    judge_all_tests [(tc0, Except.error (str "x"),
        ExecBehavior.proc ProcBehavior.hangs)] false 2000 =
      JudgeAllOut.ok
        [{ tc0 with
           status := .CompilationError
           error_message := some (str "Compilation failed: x") }]
        { total := 1
          passed := 0
          wrong_answer := 0
          runtime_error := 0
          time_limit_exceeded := 0
          memory_limit_exceeded := 0
          compilation_error := 1 } := by
  decide

/-- C6: `reset()` returns the test to `Pending` with all optional run
fields unset, and leaves identity, input and expected output unchanged. -/
theorem c6_reset_restores_pending :
    ∀ t : TestCase,
      t.reset.status = TestStatus.Pending ∧
      t.reset.actual_output = none ∧
      t.reset.execution_time = none ∧
      t.reset.memory_used = none ∧
      t.reset.error_message = none ∧
      t.reset.id = t.id ∧
      t.reset.input = t.input ∧
      t.reset.expected_output = t.expected_output := by
  intro t
  exact ⟨rfl, rfl, rfl, rfl, rfl, rfl, rfl, rfl⟩

/-- C7, counterexample: the program exits with code 1 and writes `"boom"`
to stderr; the test ends `RuntimeError`, but its error message is the
stderr text `"boom"`, which does not contain the exit code `1` (stderr
takes priority over the exit code in `update_test_from_result`). -/
theorem c7_counterexample :
    (run_test (some (str "a.exe")) tc0 false
      (ExecBehavior.proc (ProcBehavior.exits 5 (str "6\n") (str "boom") 1))
      2000).test.status = TestStatus.RuntimeError ∧
    (run_test (some (str "a.exe")) tc0 false
      (ExecBehavior.proc (ProcBehavior.exits 5 (str "6\n") (str "boom") 1))
      2000).test.error_message = some (str "boom") ∧
    containsSub (str "boom") (str "1") = false := by
  decide

/-- C8, code evaluation at the failing input: with the cancellation
signal already set before the run starts, `run_test` still spawns the
process, executes it to completion and judges it normally (`Ok`, status
`Accepted` here); the call behaves identically with the signal cleared,
because the executor never reads the flag, and no interrupted outcome
exists anywhere in the result. -/
theorem c8_cancellation_signal_is_ignored :
    (run_test (some (str "a.exe")) tc0 true
      (ExecBehavior.proc (ProcBehavior.exits 5 (str "6\n") [] 0))
      2000).spawned = true ∧
    (run_test (some (str "a.exe")) tc0 true
      (ExecBehavior.proc (ProcBehavior.exits 5 (str "6\n") [] 0))
      2000).outcome = JOutcome.ok ∧
    (run_test (some (str "a.exe")) tc0 true
      (ExecBehavior.proc (ProcBehavior.exits 5 (str "6\n") [] 0))
      2000).test.status = TestStatus.Accepted ∧
    run_test (some (str "a.exe")) tc0 true
      (ExecBehavior.proc (ProcBehavior.exits 5 (str "6\n") [] 0)) 2000 =
    run_test (some (str "a.exe")) tc0 false
      (ExecBehavior.proc (ProcBehavior.exits 5 (str "6\n") [] 0)) 2000 := by
  decide

/-- For a process that exits within the time limit with non-empty stderr,
`Executor::execute` returns the captured output with the stderr text as
the advisory error string. -/
theorem exec_call_normal (elapsed lim : Nat) (out errS : List Char)
    (code : Int) (hlim : elapsed ≤ lim) (herr : errS ≠ []) :
    executeCall (ExecBehavior.proc (ProcBehavior.exits elapsed out errS code))
      lim =
    ExecStep.ok
      { output := out
        exit_code := code
        execution_time := elapsed
        memory_used := none
        error := some errS } := by
  unfold executeCall execute
  dsimp only
  rw [if_neg (Nat.not_lt.mpr hlim), if_neg herr]

/-- Shape of `update_test_from_result` when the result carries an error
string. -/
theorem update_stderr (t : TestCase) (out : List Char) (code : Int)
    (et : Nat) (mu : Option Nat) (e : List Char) :
    update_test_from_result t
      { output := out
        exit_code := code
        execution_time := et
        memory_used := mu
        error := some e } =
    (if containsSub e (str "Timeout") then
      { t with
        execution_time := some et
        memory_used := mu
        actual_output := some out
        status := .TimeLimitExceeded }
    else
      { t with
        execution_time := some et
        memory_used := mu
        actual_output := some out
        status := .RuntimeError
        error_message := some e }) := by
  unfold update_test_from_result
  rfl

/-- C7 (amended): when the program exits with code 1 within the time
limit and writes stderr text that does not contain `"Timeout"`, the test
ends `RuntimeError` and the error message is the stderr text itself (the
exit code is not part of the message). -/
theorem c7_exit_one_with_stderr :
    ∀ (exe : List Char) (test : TestCase) (sig : Bool) (out errS : List Char)
      (elapsed lim : Nat),
      errS ≠ [] →
      containsSub errS (str "Timeout") = false →
      elapsed ≤ lim →
      (run_test (some exe) test sig
        (ExecBehavior.proc (ProcBehavior.exits elapsed out errS 1))
        lim).test.status = TestStatus.RuntimeError ∧
      (run_test (some exe) test sig
        (ExecBehavior.proc (ProcBehavior.exits elapsed out errS 1))
        lim).test.error_message = some errS := by
  intro exe test sig out errS elapsed lim herr hT hlim
  rw [run_test_some_ok exe test sig _ lim _
    (exec_call_normal elapsed lim out errS 1 hlim herr)]
  rw [update_stderr]
  rw [if_neg (by simp [hT])]
  exact ⟨rfl, rfl⟩

/-- C7, witness: concrete instance of the amended claim. -/
theorem c7_witness :
    (run_test (some (str "a.exe")) tc0 false
      (ExecBehavior.proc (ProcBehavior.exits 5 (str "6\n") (str "err out") 1))
      2000).test.status = TestStatus.RuntimeError ∧
    (run_test (some (str "a.exe")) tc0 false
      (ExecBehavior.proc (ProcBehavior.exits 5 (str "6\n") (str "err out") 1))
      2000).test.error_message = some (str "err out") :=
  c7_exit_one_with_stderr (str "a.exe") tc0 false (str "6\n") (str "err out")
    5 2000 (by decide) (by decide) (by decide)

/-- C10: for a completed execution that is not a timeout, non-empty
stderr decides the status — `TimeLimitExceeded` when it contains the
substring `"Timeout"`, otherwise `RuntimeError` with the stderr text as
the error message — regardless of the exit code and of whether the
output matches. -/
theorem c10_stderr_overrides_classification :
    ∀ (exe : List Char) (test : TestCase) (sig : Bool) (out errS : List Char)
      (code : Int) (elapsed lim : Nat),
      elapsed ≤ lim →
      errS ≠ [] →
      (containsSub errS (str "Timeout") = true →
        (run_test (some exe) test sig
          (ExecBehavior.proc (ProcBehavior.exits elapsed out errS code))
          lim).test.status = TestStatus.TimeLimitExceeded) ∧
      (containsSub errS (str "Timeout") = false →
        (run_test (some exe) test sig
          (ExecBehavior.proc (ProcBehavior.exits elapsed out errS code))
          lim).test.status = TestStatus.RuntimeError ∧
        (run_test (some exe) test sig
          (ExecBehavior.proc (ProcBehavior.exits elapsed out errS code))
          lim).test.error_message = some errS) := by
  intro exe test sig out errS code elapsed lim hlim herr
  rw [run_test_some_ok exe test sig _ lim _
    (exec_call_normal elapsed lim out errS code hlim herr)]
  rw [update_stderr]
  constructor
  · intro hT
    rw [if_pos (by simp [hT])]
  · intro hT
    rw [if_neg (by simp [hT])]
    exact ⟨rfl, rfl⟩

/-- C10, witness: exit code 0 and output equal to the expected output,
yet the non-empty stderr text (not containing `"Timeout"`) forces
`RuntimeError` with the stderr text as the message. -/
theorem c10_witness :
    (run_test (some (str "a.exe")) tc0 false
      (ExecBehavior.proc (ProcBehavior.exits 5 (str "6\n") (str "warning") 0))
      2000).test.status = TestStatus.RuntimeError ∧
    (run_test (some (str "a.exe")) tc0 false
      (ExecBehavior.proc (ProcBehavior.exits 5 (str "6\n") (str "warning") 0))
      2000).test.error_message = some (str "warning") :=
  (c10_stderr_overrides_classification (str "a.exe") tc0 false (str "6\n")
    (str "warning") 0 5 2000 (by decide) (by decide)).2 (by decide)

/-- One unfolding step of the `judge_all_tests` loop. -/
theorem judgeAllGo_cons (sig : Bool) (lim : Nat) (t : TestCase)
    (c : Except (List Char) (List Char)) (eb : ExecBehavior)
    (rest : List JudgeItem) (st : JudgeStatistics) :
    judgeAllGo sig lim ((t, c, eb) :: rest) st =
    (match (judge_test c t sig eb lim).outcome with
     | .err m => .err m
     | .hangs => .hangs
     | .ok =>
       match judgeAllGo sig lim rest
           (bump st (judge_test c t sig eb lim).test.status) with
       | .ok ts st2 => .ok ((judge_test c t sig eb lim).test :: ts) st2
       | .err m => .err m
       | .hangs => .hangs) := rfl

/-- How `bump` changes each statistics field. -/
theorem bump_fields (st : JudgeStatistics) (s : TestStatus) :
    (bump st s).total = st.total ∧
    (bump st s).passed =
      st.passed + (if s = TestStatus.Accepted then 1 else 0) ∧
    (bump st s).wrong_answer =
      st.wrong_answer + (if s = TestStatus.WrongAnswer then 1 else 0) ∧
    (bump st s).runtime_error =
      st.runtime_error + (if s = TestStatus.RuntimeError then 1 else 0) ∧
    (bump st s).time_limit_exceeded =
      st.time_limit_exceeded +
        (if s = TestStatus.TimeLimitExceeded then 1 else 0) ∧
    (bump st s).memory_limit_exceeded =
      st.memory_limit_exceeded +
        (if s = TestStatus.MemoryLimitExceeded then 1 else 0) ∧
    (bump st s).compilation_error =
      st.compilation_error +
        (if s = TestStatus.CompilationError then 1 else 0) := by
  cases s <;> simp [bump]

/-- Specification of an `Ok` return of the `judge_all_tests` loop,
relative to an arbitrary starting statistics record: the final test list
is the in-order per-item result of `judge_test`, and every counter has
grown by the number of final tests with the matching status. -/
theorem judgeAllGo_ok_spec (sig : Bool) (lim : Nat) :
    ∀ (items : List JudgeItem) (st : JudgeStatistics) (ts : List TestCase)
      (st2 : JudgeStatistics),
      judgeAllGo sig lim items st = .ok ts st2 →
      ts = items.map (fun it => (judge_test it.2.1 it.1 sig it.2.2 lim).test) ∧
      st2.total = st.total ∧
      st2.passed = st.passed +
        ts.countP (fun t => decide (t.status = TestStatus.Accepted)) ∧
      st2.wrong_answer = st.wrong_answer +
        ts.countP (fun t => decide (t.status = TestStatus.WrongAnswer)) ∧
      st2.runtime_error = st.runtime_error +
        ts.countP (fun t => decide (t.status = TestStatus.RuntimeError)) ∧
      st2.time_limit_exceeded = st.time_limit_exceeded +
        ts.countP (fun t => decide (t.status = TestStatus.TimeLimitExceeded)) ∧
      st2.memory_limit_exceeded = st.memory_limit_exceeded +
        ts.countP (fun t => decide (t.status = TestStatus.MemoryLimitExceeded)) ∧
      st2.compilation_error = st.compilation_error +
        ts.countP (fun t => decide (t.status = TestStatus.CompilationError))
  | [], st, ts, st2, h => by
      cases h
      simp
  | (t, c, eb) :: rest, st, ts, st2, h => by
      rw [judgeAllGo_cons] at h
      cases ho : (judge_test c t sig eb lim).outcome with
      | ok =>
        rw [ho] at h
        dsimp only at h
        cases hgo : judgeAllGo sig lim rest
            (bump st (judge_test c t sig eb lim).test.status) with
        | ok ts' st' =>
          rw [hgo] at h
          dsimp only at h
          cases h
          obtain ⟨hts, htot, hp, hwa, hre, htle, hmle, hce⟩ :=
            judgeAllGo_ok_spec sig lim rest _ ts' st2 hgo
          obtain ⟨bt, bp, bwa, bre, btle, bmle, bce⟩ :=
            bump_fields st (judge_test c t sig eb lim).test.status
          refine ⟨by simp [hts], by rw [htot, bt], ?_, ?_, ?_, ?_, ?_, ?_⟩ <;>
            simp only [List.countP_cons, hp, hwa, hre, htle, hmle, hce,
              bp, bwa, bre, btle, bmle, bce, decide_eq_true_eq] <;>
            omega
        | err m =>
          rw [hgo] at h
          exact absurd h (by simp)
        | hangs =>
          rw [hgo] at h
          exact absurd h (by simp)
      | err m =>
        rw [ho] at h
        exact absurd h (by simp)
      | hangs =>
        rw [ho] at h
        exact absurd h (by simp)

/-- C9: whenever `judge_all_tests` returns `Ok`, the statistics'
`total` is the number of tests in the batch, each per-status counter is
the number of tests whose final status is that terminal status, and the
returned tests are exactly the in-order, one-at-a-time `judge_test`
results for the items as provided. -/
theorem c9_batch_statistics :
    ∀ (items : List JudgeItem) (sig : Bool) (lim : Nat)
      (ts : List TestCase) (st : JudgeStatistics),
      judge_all_tests items sig lim = JudgeAllOut.ok ts st →
      st.total = items.length ∧
      ts = items.map (fun it => (judge_test it.2.1 it.1 sig it.2.2 lim).test) ∧
      st.passed =
        ts.countP (fun t => decide (t.status = TestStatus.Accepted)) ∧
      st.wrong_answer =
        ts.countP (fun t => decide (t.status = TestStatus.WrongAnswer)) ∧
      st.runtime_error =
        ts.countP (fun t => decide (t.status = TestStatus.RuntimeError)) ∧
      st.time_limit_exceeded =
        ts.countP (fun t => decide (t.status = TestStatus.TimeLimitExceeded)) ∧
      st.memory_limit_exceeded =
        ts.countP (fun t => decide (t.status = TestStatus.MemoryLimitExceeded)) ∧
      st.compilation_error =
        ts.countP (fun t => decide (t.status = TestStatus.CompilationError)) := by
  intro items sig lim ts st h
  obtain ⟨hts, htot, hp, hwa, hre, htle, hmle, hce⟩ :=
    judgeAllGo_ok_spec sig lim items _ ts st h
  exact ⟨by simpa using htot, hts, by simpa using hp, by simpa using hwa,
    by simpa using hre, by simpa using htle, by simpa using hmle,
    by simpa using hce⟩

/-- C9, witness: the statistics equations at a concrete one-test batch
that returns `Ok` with one accepted test. -/
theorem c9_witness :
    ({ total := 1
       passed := 1
       wrong_answer := 0
       runtime_error := 0
       time_limit_exceeded := 0
       memory_limit_exceeded := 0
       compilation_error := 0 } : JudgeStatistics).total =
      ([(tc0, Except.ok (str "a.exe"),
        ExecBehavior.proc (.exits 5 (str "6\n") [] 0))] :
          List JudgeItem).length ∧
    [{ tc0 with
       status := .Accepted
       actual_output := some (str "6\n")
       execution_time := some 5 }] =
      ([(tc0, Except.ok (str "a.exe"),
        ExecBehavior.proc (.exits 5 (str "6\n") [] 0))] :
          List JudgeItem).map
        (fun it => (judge_test it.2.1 it.1 false it.2.2 2000).test) ∧
    ({ total := 1
       passed := 1
       wrong_answer := 0
       runtime_error := 0
       time_limit_exceeded := 0
       memory_limit_exceeded := 0
       compilation_error := 0 } : JudgeStatistics).passed =
      List.countP (fun t => decide (t.status = TestStatus.Accepted))
        [{ tc0 with
           status := .Accepted
           actual_output := some (str "6\n")
           execution_time := some 5 }] ∧
    ({ total := 1
       passed := 1
       wrong_answer := 0
       runtime_error := 0
       time_limit_exceeded := 0
       memory_limit_exceeded := 0
       compilation_error := 0 } : JudgeStatistics).wrong_answer =
      List.countP (fun t => decide (t.status = TestStatus.WrongAnswer))
        [{ tc0 with
           status := .Accepted
           actual_output := some (str "6\n")
           execution_time := some 5 }] ∧
    ({ total := 1
       passed := 1
       wrong_answer := 0
       runtime_error := 0
       time_limit_exceeded := 0
       memory_limit_exceeded := 0
       compilation_error := 0 } : JudgeStatistics).runtime_error =
      List.countP (fun t => decide (t.status = TestStatus.RuntimeError))
        [{ tc0 with
           status := .Accepted
           actual_output := some (str "6\n")
           execution_time := some 5 }] ∧
    ({ total := 1
       passed := 1
       wrong_answer := 0
       runtime_error := 0
       time_limit_exceeded := 0
       memory_limit_exceeded := 0
       compilation_error := 0 } : JudgeStatistics).time_limit_exceeded =
      List.countP (fun t => decide (t.status = TestStatus.TimeLimitExceeded))
        [{ tc0 with
           status := .Accepted
           actual_output := some (str "6\n")
           execution_time := some 5 }] ∧
    ({ total := 1
       passed := 1
       wrong_answer := 0
       runtime_error := 0
       time_limit_exceeded := 0
       memory_limit_exceeded := 0
       compilation_error := 0 } : JudgeStatistics).memory_limit_exceeded =
      List.countP (fun t => decide (t.status = TestStatus.MemoryLimitExceeded))
        [{ tc0 with
           status := .Accepted
           actual_output := some (str "6\n")
           execution_time := some 5 }] ∧
    ({ total := 1
       passed := 1
       wrong_answer := 0
       runtime_error := 0
       time_limit_exceeded := 0
       memory_limit_exceeded := 0
       compilation_error := 0 } : JudgeStatistics).compilation_error =
      List.countP (fun t => decide (t.status = TestStatus.CompilationError))
        [{ tc0 with
           status := .Accepted
           actual_output := some (str "6\n")
           execution_time := some 5 }] :=
  c9_batch_statistics
    [(tc0, Except.ok (str "a.exe"),
      ExecBehavior.proc (.exits 5 (str "6\n") [] 0))] false 2000
    [{ tc0 with
       status := .Accepted
       actual_output := some (str "6\n")
       execution_time := some 5 }]
    { total := 1
      passed := 1
      wrong_answer := 0
      runtime_error := 0
      time_limit_exceeded := 0
      memory_limit_exceeded := 0
      compilation_error := 0 }
    (by decide)

/-- The `judge_all_tests` loop when every item's compilation fails:
the loop returns `Ok`, and every test of the batch ends with status
`CompilationError` and the compiler's failure description in its error
message. -/
theorem judgeAllGo_all_compile_err (sig : Bool) (lim : Nat) :
    ∀ (items : List JudgeItem) (st : JudgeStatistics),
      (∀ it ∈ items, ∃ m, it.2.1 = Except.error m) →
      ∃ ts st2, judgeAllGo sig lim items st = .ok ts st2 ∧
        ts.length = items.length ∧
        ∀ t ∈ ts, t.status = TestStatus.CompilationError ∧
          ∃ m, t.error_message = some (str "Compilation failed: " ++ m)
  | [], st, _ => ⟨[], st, rfl, rfl, by simp⟩
  | (t, c, eb) :: rest, st, h => by
      obtain ⟨m, hm⟩ := h (t, c, eb) (List.mem_cons_self _ _)
      dsimp only at hm
      subst hm
      obtain ⟨ts, st2, hgo, hlen, hall⟩ :=
        judgeAllGo_all_compile_err sig lim rest (bump st .CompilationError)
          (fun it hit => h it (List.mem_cons_of_mem _ hit))
      refine ⟨({ t with
        status := .CompilationError
        error_message := some (str "Compilation failed: " ++ m) } :
          TestCase) :: ts, st2, ?_, ?_, ?_⟩
      · rw [judgeAllGo_cons, judge_test_compile_err]
        dsimp only
        rw [hgo]
      · simp [hlen]
      · intro t' ht'
        rcases List.mem_cons.mp ht' with h1 | h2
        · subst h1
          exact ⟨rfl, m, rfl⟩
        · exact hall t' h2

/-- C5 (amended): if compilation fails for every test of a batch, the
batch returns `Ok` and all N tests end with status `CompilationError`,
with `"Compilation failed: "` followed by the compiler's failure
description as the error message; however each test's status does take
the value `Running` during the batch — `judge_test` assigns `Running`
before its compile attempt, so every test's status history is
`[Running, CompilationError]`. -/
theorem c5_compile_failure_batch :
    (∀ (items : List JudgeItem) (sig : Bool) (lim : Nat),
      (∀ it ∈ items, ∃ m, it.2.1 = Except.error m) →
      ∃ ts st, judge_all_tests items sig lim = JudgeAllOut.ok ts st ∧
        ts.length = items.length ∧
        ∀ t ∈ ts, t.status = TestStatus.CompilationError ∧
          ∃ m, t.error_message = some (str "Compilation failed: " ++ m)) ∧
    (∀ (test : TestCase) (m : List Char) (sig : Bool) (eb : ExecBehavior)
      (lim : Nat),
      (judge_test (Except.error m) test sig eb lim).trace =
        [TestStatus.Running, TestStatus.CompilationError]) := by
  constructor
  · intro items sig lim h
    exact judgeAllGo_all_compile_err sig lim items _ h
  · intro test m sig eb lim
    rw [judge_test_compile_err]

/-- C5, witness: the amended batch property at a concrete failing
compile. -/
theorem c5_witness :
    ∃ ts st,
      judge_all_tests [(tc0, Except.error (str "no compiler"),
        ExecBehavior.proc ProcBehavior.hangs)] false 2000 =
        JudgeAllOut.ok ts st ∧
      ts.length = ([(tc0, Except.error (str "no compiler"),
        ExecBehavior.proc ProcBehavior.hangs)] : List JudgeItem).length ∧
      ∀ t ∈ ts, t.status = TestStatus.CompilationError ∧
        ∃ m, t.error_message = some (str "Compilation failed: " ++ m) :=
  c5_compile_failure_batch.1
    [(tc0, Except.error (str "no compiler"),
      ExecBehavior.proc ProcBehavior.hangs)] false 2000
    (by
      intro it hit
      simp only [List.mem_singleton] at hit
      subst hit
      exact ⟨str "no compiler", rfl⟩)

/-! Lemmas about the output normalization. -/

/-- Appending a trailing whitespace character does not change
`trim_end`. -/
theorem trimEndL_append_ws (x : List Char) (c : Char)
    (hc : rustIsWhitespace c = true) :
    trimEndL (x ++ [c]) = trimEndL x := by
  unfold trimEndL
  rw [List.reverse_append]
  simp [List.dropWhile_cons, hc]

/-- A leading whitespace character does not change `trim_start`. -/
theorem trimStartL_cons_ws (x : List Char) (c : Char)
    (hc : rustIsWhitespace c = true) :
    trimStartL (c :: x) = trimStartL x := by
  unfold trimStartL
  simp [List.dropWhile_cons, hc]

/-- A leading whitespace character does not change `trim`. -/
theorem trimL_cons_ws (x : List Char) (c : Char)
    (hc : rustIsWhitespace c = true) :
    trimL (c :: x) = trimL x := by
  unfold trimL
  rw [trimStartL_cons_ws x c hc]

/-- A trailing whitespace character does not change `trim`. -/
theorem trimL_append_ws (x : List Char) (c : Char)
    (hc : rustIsWhitespace c = true) :
    trimL (x ++ [c]) = trimL x := by
  unfold trimL trimStartL
  rw [List.dropWhile_append]
  by_cases hd : (List.dropWhile rustIsWhitespace x).isEmpty = true
  · rw [if_pos hd]
    rw [List.isEmpty_iff] at hd
    rw [hd]
    simp [List.dropWhile_cons, hc, trimEndL]
  · rw [if_neg hd]
    exact trimEndL_append_ws _ c hc

/-- Appending a final empty piece to a nonempty line list appends a
single `'\n'` to the joined text. -/
theorem joinSep_append_nil :
    ∀ (L : List (List Char)), L ≠ [] → joinSep (L ++ [[]]) = joinSep L ++ ['\n']
  | [], h => absurd rfl h
  | [x], _ => by simp [joinSep]
  | x :: y :: t, _ => by
      have ih := joinSep_append_nil (y :: t) (by simp)
      show joinSep (x :: ((y :: t) ++ [[]])) = (x ++ '\n' :: joinSep (y :: t)) ++ ['\n']
      have hne : (y :: t) ++ [[]] ≠ [] := by simp
      rcases hyt : (y :: t) ++ [[]] with _ | ⟨z, zs⟩
      · exact absurd hyt hne
      · rw [← hyt]
        show x ++ '\n' :: joinSep ((y :: t) ++ [[]]) =
          (x ++ '\n' :: joinSep (y :: t)) ++ ['\n']
        rw [ih]
        simp

/-- Prepending an empty piece to a nonempty line list prepends a single
`'\n'` to the joined text. -/
theorem joinSep_cons_nil (L : List (List Char)) (h : L ≠ []) :
    joinSep ([] :: L) = '\n' :: joinSep L := by
  rcases L with _ | ⟨y, t⟩
  · exact absurd rfl h
  · rfl

/-- `joinSep` over a cons with a nonempty tail. -/
theorem joinSep_cons_of_ne (a : List Char) (L : List (List Char))
    (h : L ≠ []) :
    joinSep (a :: L) = a ++ '\n' :: joinSep L := by
  rcases L with _ | ⟨y, t⟩
  · exact absurd rfl h
  · rfl

/-- Dropping a trailing empty line does not change the trimmed joined
text. -/
theorem trimL_joinSep_append_nil (L : List (List Char)) :
    trimL (joinSep (L ++ [[]])) = trimL (joinSep L) := by
  rcases hL : L with _ | ⟨x, t⟩
  · rfl
  · rw [← hL, joinSep_append_nil L (by rw [hL]; simp)]
    exact trimL_append_ws _ '\n' (by decide)

/-- Dropping the leading empty lines does not change the trimmed joined
text. -/
theorem trimL_joinSep_dropLeading :
    ∀ L : List (List Char),
      trimL (joinSep (dropLeadingEmpty L)) = trimL (joinSep L)
  | [] => rfl
  | l :: L => by
      by_cases hl : l.isEmpty = true
      · have hl' : l = [] := by
          rwa [List.isEmpty_iff] at hl
        subst hl'
        have hstep : dropLeadingEmpty ([] :: L) = dropLeadingEmpty L := by
          simp [dropLeadingEmpty, List.dropWhile_cons]
        rw [hstep]
        rcases hL : L with _ | ⟨y, t⟩
        · rfl
        · rw [← hL, joinSep_cons_nil L (by rw [hL]; simp)]
          rw [trimL_cons_ws _ '\n' (by decide)]
          exact trimL_joinSep_dropLeading L
      · have hstep : dropLeadingEmpty (l :: L) = l :: L := by
          simp [dropLeadingEmpty, List.dropWhile_cons, hl]
        rw [hstep]

/-- Dropping a final empty piece commutes with `dropTrailingEmpty`. -/
theorem dropTrailingEmpty_append_nil (L : List (List Char)) :
    dropTrailingEmpty (L ++ [[]]) = dropTrailingEmpty L := by
  unfold dropTrailingEmpty
  rw [List.reverse_append]
  simp [List.dropWhile_cons]

/-- `dropTrailingEmpty` keeps a nonempty final piece. -/
theorem dropTrailingEmpty_append_ne (L : List (List Char)) (a : List Char)
    (ha : a ≠ []) :
    dropTrailingEmpty (L ++ [a]) = L ++ [a] := by
  unfold dropTrailingEmpty
  rw [List.reverse_append]
  have : a.isEmpty = false := by
    simp [List.isEmpty_iff, ha]
  simp [List.dropWhile_cons, this]

/-- Dropping the trailing empty lines does not change the trimmed joined
text. -/
theorem trimL_joinSep_dropTrailing (L : List (List Char)) :
    trimL (joinSep (dropTrailingEmpty L)) = trimL (joinSep L) := by
  induction L using List.reverseRecOn with
  | nil => rfl
  | append_singleton L a ih =>
    by_cases ha : a = []
    · subst ha
      rw [dropTrailingEmpty_append_nil, trimL_joinSep_append_nil]
      exact ih
    · rw [dropTrailingEmpty_append_ne L a ha]

/-- Dropping both the leading and the trailing empty lines does not
change the trimmed joined text. -/
theorem trimL_joinSep_dropOuter (L : List (List Char)) :
    trimL (joinSep (dropOuterEmpty L)) = trimL (joinSep L) := by
  unfold dropOuterEmpty
  rw [trimL_joinSep_dropTrailing, trimL_joinSep_dropLeading]

/-- Stripping a terminating `'\r'` is absorbed by `trim_end` (a carriage
return is whitespace). -/
theorem stripCR_trimEndL (l : List Char) :
    trimEndL (stripCR l) = trimEndL l := by
  unfold stripCR
  rcases hr : l.reverse with _ | ⟨c, t⟩
  · rfl
  · dsimp only
    by_cases hc : c = '\r'
    · rw [if_pos hc]
      subst hc
      unfold trimEndL
      rw [hr, List.reverse_reverse]
      simp [List.dropWhile_cons, show rustIsWhitespace '\r' = true from by decide]
    · rw [if_neg hc]

/-- The raw `'\n'` split never returns an empty list of pieces. -/
theorem splitOnNl_ne_nil : ∀ s : List Char, splitOnNl s ≠ []
  | [] => by simp [splitOnNl]
  | c :: rest => by
      unfold splitOnNl
      by_cases hc : c = '\n'
      · simp [hc]
      · rw [if_neg hc]
        rcases hps : splitOnNl rest with _ | ⟨h, t⟩
        · exact absurd hps (splitOnNl_ne_nil rest)
        · simp

/-- The `str::lines` adjustment changes the joined trimmed-per-line text
by at most one trailing `'\n'` (dropped when the final raw piece is
empty). -/
theorem joinSep_adjustParts :
    ∀ ps : List (List Char), ps ≠ [] →
      joinSep (ps.map trimEndL) = joinSep ((adjustParts ps).map trimEndL) ∨
      joinSep (ps.map trimEndL) =
        joinSep ((adjustParts ps).map trimEndL) ++ ['\n']
  | [], h => absurd rfl h
  | [l], _ => by
      by_cases hl : l = []
      · subst hl
        left
        rfl
      · rw [show adjustParts [l] = [l] by simp [adjustParts, hl]]
        left
        rfl
  | l :: l2 :: rest, _ => by
      have hadj : adjustParts (l :: l2 :: rest) =
          stripCR l :: adjustParts (l2 :: rest) := rfl
      rcases hA : adjustParts (l2 :: rest) with _ | ⟨a, as⟩
      · have h2 : l2 = [] ∧ rest = [] := by
          rcases rest with _ | ⟨r, rs⟩
          · by_cases h3 : l2 = []
            · exact ⟨h3, rfl⟩
            · rw [show adjustParts [l2] = [l2] by simp [adjustParts, h3]] at hA
              exact absurd hA (by simp)
          · rw [show adjustParts (l2 :: r :: rs) =
              stripCR l2 :: adjustParts (r :: rs) from rfl] at hA
            exact absurd hA (by simp)
        obtain ⟨h2a, h2b⟩ := h2
        subst h2a
        subst h2b
        right
        rw [hadj, hA]
        show joinSep [trimEndL l, trimEndL []] = joinSep [trimEndL (stripCR l)] ++ ['\n']
        show trimEndL l ++ '\n' :: joinSep [trimEndL []] =
          trimEndL (stripCR l) ++ ['\n']
        rw [stripCR_trimEndL]
        rfl
      · have hne : adjustParts (l2 :: rest) ≠ [] := by
          rw [hA]
          simp
        have hmapne : (adjustParts (l2 :: rest)).map trimEndL ≠ [] := by
          rw [hA]
          simp
        rw [hadj]
        rw [show ((l :: l2 :: rest).map trimEndL) =
          trimEndL l :: (l2 :: rest).map trimEndL from rfl]
        rw [show ((stripCR l :: adjustParts (l2 :: rest)).map trimEndL) =
          trimEndL (stripCR l) :: (adjustParts (l2 :: rest)).map trimEndL
          from rfl]
        rw [joinSep_cons_of_ne _ _ (by simp),
          joinSep_cons_of_ne _ _ hmapne, stripCR_trimEndL]
        rcases joinSep_adjustParts (l2 :: rest) (by simp) with h | h
        · left
          rw [h]
        · right
          rw [h]
          simp

/-- The code's normalization (via Rust `str::lines`) computes exactly the
normalization described by the spec (plain split at `'\n'`): the two
conventions differ only in `\r\n` handling and in the optional final
line ending, and both differences are erased by the per-line
`trim_end` and the final `trim`. -/
theorem normalize_eq_spec (s : List Char) :
    normalize_output s = spec_normalize s := by
  unfold normalize_output spec_normalize rustLines
  rcases joinSep_adjustParts (splitOnNl s) (splitOnNl_ne_nil s) with h | h
  · rw [h]
  · rw [h, trimL_append_ws _ '\n' (by decide)]

/-- C3: the comparator reports equal exactly when the spec's
normalization (split into lines, strip trailing whitespace per line,
rejoin with `'\n'`, trim the whole) yields identical results on the two
inputs; consequently any two strings whose trailing-whitespace-stripped
line lists agree up to leading/trailing blank lines compare equal. -/
theorem c3_comparator_matches_spec :
    (∀ e a : List Char,
      compare_output e a = true ↔ spec_normalize e = spec_normalize a) ∧
    (∀ s t : List Char,
      dropOuterEmpty ((rustLines s).map trimEndL) =
        dropOuterEmpty ((rustLines t).map trimEndL) →
      compare_output s t = true) := by
  constructor
  · intro e a
    simp only [compare_output, decide_eq_true_eq, normalize_eq_spec]
  · intro s t h
    simp only [compare_output, decide_eq_true_eq]
    unfold normalize_output
    rw [← trimL_joinSep_dropOuter ((rustLines s).map trimEndL), h,
      trimL_joinSep_dropOuter]

/-- C3, witness: two strings differing only in trailing-line whitespace
and in leading/trailing blank lines compare equal. -/
theorem c3_witness :
    compare_output (str "x \ny\n\n") (str "\nx\ny") = true :=
  c3_comparator_matches_spec.2 (str "x \ny\n\n") (str "\nx\ny") (by decide)

/-! Lemmas showing that normalization only deletes whitespace characters
and keeps the non-whitespace characters in order. -/

/-- Dropping a whitespace prefix does not change the non-whitespace
content. -/
theorem filter_dropWhile_ws :
    ∀ x : List Char,
      (List.dropWhile rustIsWhitespace x).filter nonWS = x.filter nonWS
  | [] => rfl
  | c :: t => by
      by_cases hc : rustIsWhitespace c = true
      · have hn : nonWS c = false := by
          simp [nonWS, hc]
        simp [List.dropWhile_cons, hc, List.filter_cons, hn,
          filter_dropWhile_ws t]
      · simp [List.dropWhile_cons, hc]

/-- `trim_end` does not change the non-whitespace content. -/
theorem filter_trimEndL (x : List Char) :
    (trimEndL x).filter nonWS = x.filter nonWS := by
  unfold trimEndL
  rw [List.filter_reverse, filter_dropWhile_ws, List.filter_reverse,
    List.reverse_reverse]

/-- `trim` does not change the non-whitespace content. -/
theorem filter_trimL (x : List Char) :
    (trimL x).filter nonWS = x.filter nonWS := by
  unfold trimL trimStartL
  rw [filter_trimEndL, filter_dropWhile_ws]

/-- Joining with `'\n'` separators does not change the non-whitespace
content of the pieces. -/
theorem filter_joinSep :
    ∀ L : List (List Char),
      (joinSep L).filter nonWS = (L.map (fun l => l.filter nonWS)).flatten
  | [] => rfl
  | [x] => by simp [joinSep]
  | x :: y :: t => by
      have hn : nonWS '\n' = false := by decide
      show (x ++ '\n' :: joinSep (y :: t)).filter nonWS = _
      rw [List.filter_append, List.filter_cons]
      simp only [hn]
      rw [filter_joinSep (y :: t)]
      simp

/-- Stripping the `'\r'` of a `\r\n` terminator does not change the
non-whitespace content. -/
theorem filter_stripCR (l : List Char) :
    (stripCR l).filter nonWS = l.filter nonWS := by
  unfold stripCR
  rcases hr : l.reverse with _ | ⟨c, t⟩
  · rfl
  · dsimp only
    by_cases hc : c = '\r'
    · rw [if_pos hc]
      subst hc
      have hl : l = t.reverse ++ ['\r'] := by
        rw [← List.reverse_reverse l, hr]
        simp
      rw [hl, List.filter_append]
      simp [List.filter_cons, show nonWS '\r' = false from by decide]
    · rw [if_neg hc]

/-- The `str::lines` adjustment does not change the non-whitespace
content of the pieces. -/
theorem filter_flatten_adjustParts :
    ∀ ps : List (List Char),
      ((adjustParts ps).map (fun l => l.filter nonWS)).flatten =
      (ps.map (fun l => l.filter nonWS)).flatten
  | [] => rfl
  | [l] => by
      by_cases hl : l = []
      · subst hl
        rfl
      · rw [show adjustParts [l] = [l] by simp [adjustParts, hl]]
  | l :: l2 :: rest => by
      show ((stripCR l :: adjustParts (l2 :: rest)).map
        (fun l => l.filter nonWS)).flatten = _
      rw [List.map_cons, List.flatten_cons, filter_stripCR,
        filter_flatten_adjustParts (l2 :: rest)]
      rfl

/-- Re-concatenating the raw `'\n'` split pieces recovers exactly the
non-whitespace content of the original string. -/
theorem filter_flatten_splitOnNl :
    ∀ s : List Char,
      ((splitOnNl s).map (fun l => l.filter nonWS)).flatten = s.filter nonWS
  | [] => by simp [splitOnNl]
  | c :: rest => by
      unfold splitOnNl
      by_cases hc : c = '\n'
      · subst hc
        rw [if_pos rfl]
        rw [List.map_cons, List.flatten_cons]
        rw [filter_flatten_splitOnNl rest]
        simp [List.filter_cons, show nonWS '\n' = false from by decide]
      · rw [if_neg hc]
        rcases hps : splitOnNl rest with _ | ⟨h, t⟩
        · exact absurd hps (splitOnNl_ne_nil rest)
        · have ih := filter_flatten_splitOnNl rest
          rw [hps] at ih
          rw [List.map_cons, List.flatten_cons] at ih ⊢
          rw [List.filter_cons, List.filter_cons]
          by_cases hn : nonWS c = true
          · simp only [hn, if_true]
            rw [List.cons_append, ← ih]
          · simp only [hn]
            rw [← ih]
            simp

/-- Per-line `trim_end` does not change the non-whitespace content of a
line list. -/
theorem map_filter_trimEndL (L : List (List Char)) :
    L.map (fun l => (trimEndL l).filter nonWS) =
    L.map (fun l => l.filter nonWS) := by
  induction L with
  | nil => rfl
  | cons a t ih => simp [filter_trimEndL, ih]

/-- Normalization deletes only whitespace: the sequence of non-whitespace
characters of `normalize_output s` is exactly that of `s`. -/
theorem filter_normalize (s : List Char) :
    (normalize_output s).filter nonWS = s.filter nonWS := by
  unfold normalize_output rustLines
  rw [filter_trimL, filter_joinSep, List.map_map]
  rw [show ((fun l => l.filter nonWS) ∘ trimEndL) =
    (fun l : List Char => (trimEndL l).filter nonWS) from rfl]
  rw [map_filter_trimEndL, filter_flatten_adjustParts,
    filter_flatten_splitOnNl]

/-- C4: two strings whose sequences of non-whitespace characters differ
always compare not-equal — normalization deletes only whitespace and
preserves the order of the non-whitespace characters, so the difference
survives. -/
theorem c4_nonwhitespace_difference_detected :
    ∀ s t : List Char,
      s.filter nonWS ≠ t.filter nonWS → compare_output s t = false := by
  intro s t h
  cases hc : compare_output s t with
  | false => rfl
  | true =>
    exfalso
    have h2 : normalize_output s = normalize_output t := by
      unfold compare_output at hc
      exact of_decide_eq_true hc
    have h3 : (normalize_output s).filter nonWS =
        (normalize_output t).filter nonWS := by
      rw [h2]
    rw [filter_normalize, filter_normalize] at h3
    exact h h3

/-- C4, witness: a concrete non-whitespace difference is reported
not-equal. -/
theorem c4_witness : compare_output (str "6") (str "7") = false :=
  c4_nonwhitespace_difference_detected (str "6") (str "7") (by decide)
